import Mathlib

/-!
Verification of the coScene data-collection agent (coscout).

This file gives a shallow embedding, in Lean 4, of the parts of the coscout
Python code base that the checked claims are about, together with theorems
settling those claims.  Each definition is translated directly from the
named Python source file; Python ints are modelled as `Int`/`Nat`
(Python integers are unbounded, so no wrap-around is modelled), Python
dicts as insertion-ordered association lists, and code that can raise as
`Option`/`Except`-valued functions.
-/

namespace Coscout

/-! ## Association lists standing in for Python dicts

Python dicts preserve insertion order; assignment `d[k] = v` updates the
existing slot in place or appends a fresh one at the end.  `alookup` is
`d.get(k)`, `aset` is `d[k] = v`. -/

def alookup {α : Type} : List (String × α) → String → Option α
  | [], _ => none
  | (a, b) :: rest, k => if a = k then some b else alookup rest k

def aset {α : Type} : List (String × α) → String → α → List (String × α)
  | [], k, v => [(k, v)]
  | (a, b) :: rest, k, v => if a = k then (a, v) :: rest else (a, b) :: aset rest k v

/-! ## `cos/core/models.py` — `FileInfo` and `RecordCache.__init__`

`FileInfo(filepath=f)` fills `filename` with `Path(f).name`, the final
path component (pydantic validator `set_filename`, models.py lines 50-54).

`RecordCache.__init__` (models.py lines 186-193) runs the pydantic
constructor and then only cross-fills `files` from `file_infos` or
`file_infos` from `files`; it performs no other transformation of either
list. -/

def pathName (p : String) : String :=
  (p.splitOn "/").getLastD ""

structure FileInfo where
  filepath : String
  filename : String
  deriving Repr, DecidableEq

def FileInfo.ofFilepath (p : String) : FileInfo :=
  { filepath := p, filename := pathName p }

/-- The fields of a `RecordCache` that the claims touch.  Python `None` /
missing-dict-key values that the source only ever uses for truthiness
(`record.get("name")`, `task.get("name", "")`, `event_code`,
`project_name`) are modelled as `""`, which has the same truthiness. -/
structure RecordCache where
  uploaded : Bool := false
  skipped : Bool := false
  eventCode : String := ""
  projectName : String := ""
  timestamp : Int := 0
  recordName : String := ""
  taskName : String := ""
  momentCount : Nat := 0
  files : List String := []
  fileInfos : List FileInfo := []
  pathsToDelete : List String := []
  deriving Repr, DecidableEq

/-- `RecordCache.__init__` after `super().__init__(**data)` (models.py
lines 186-193): `if not self.files: self.files = [str(f.filepath) for f in
self.file_infos]` ; `elif not self.file_infos: self.file_infos =
[FileInfo(filepath=f) for f in self.files]`. -/
def RecordCache.init (rc : RecordCache) : RecordCache :=
  if rc.files.isEmpty then
    { rc with files := rc.fileInfos.map (·.filepath) }
  else if rc.fileInfos.isEmpty then
    { rc with fileInfos := rc.files.map FileInfo.ofFilepath }
  else
    rc

/-- `RecordCache(event_code=..., timestamp=..., files=...)`. -/
def RecordCache.new (eventCode : String) (timestamp : Int) (files : List String) :
    RecordCache :=
  RecordCache.init { eventCode := eventCode, timestamp := timestamp, files := files }

/-! ## `cos/collector/codes.py` — `EventCodeManager`

State split exactly as in the source: the in-memory
`self.last_reset_timestamp` (class attribute, initially `0`) and the JSON
state file, which holds `last_reset_timestamp` and, once `hit` has run, a
`counters` object.  `_create_or_reset_state` writes
`{"last_reset_timestamp": now}` — with no `counters` key — so a reset
empties the counters. -/

structure EventCodeConfig where
  enabled : Bool
  whitelist : List (String × Int)
  resetIntervalInSecs : Int
  deriving Repr, DecidableEq

structure CodeLimitFile where
  lastResetTimestamp : Int
  counters : List (String × Nat)
  deriving Repr, DecidableEq

structure CodeMgrState where
  memLast : Int
  file : Option CodeLimitFile
  deriving Repr, DecidableEq

/-- The value `self.last_reset_timestamp` holds after the cold-start reload
in `_create_or_reset_state` (codes.py lines 117-119): loaded from the state
file only when the in-memory value is falsy (`0`) and the file exists. -/
def effectiveLast (s : CodeMgrState) : Int :=
  if s.memLast = 0 then
    match s.file with
    | some f => f.lastResetTimestamp
    | none => s.memLast
  else s.memLast

/-- `EventCodeManager._create_or_reset_state` (codes.py lines 115-131).
Python `//` on ints is floor division, hence `Int.fdiv`. -/
def createOrResetState (conf : EventCodeConfig) (now : Int) (s : CodeMgrState) :
    CodeMgrState :=
  let memLast := effectiveLast s
  let resetDue := memLast + conf.resetIntervalInSecs
  if now > resetDue ∨ s.file.isNone then
    let n := (now - memLast).fdiv conf.resetIntervalInSecs
    { memLast := memLast + n * conf.resetIntervalInSecs,
      file := some { lastResetTimestamp := now, counters := [] } }
  else
    { memLast := memLast, file := s.file }

/-- `EventCodeManager.hit` (codes.py lines 133-147).  The guard order is the
source's: disabled → no-op, falsy code → no-op, then reset check, then the
read-modify-write of `counters` on the state file (which exists after
`_create_or_reset_state`). -/
def hit (conf : EventCodeConfig) (now : Int) (code : String) (s : CodeMgrState) :
    CodeMgrState :=
  if ¬conf.enabled then s
  else if code = "" then s
  else
    let s1 := createOrResetState conf now s
    match s1.file with
    | none => s1
    | some f =>
      let k := ((alookup f.counters code).getD 0) + 1
      { s1 with file := some { f with counters := aset f.counters code k } }

/-- `EventCodeManager.is_over_limit` (codes.py lines 149-175).  Returns the
result together with the state left behind by the embedded
`_create_or_reset_state` call. -/
def isOverLimit (conf : EventCodeConfig) (now : Int) (code : String)
    (s : CodeMgrState) : Bool × CodeMgrState :=
  if ¬conf.enabled then (false, s)
  else
    let s1 := createOrResetState conf now s
    if code = "" then (true, s1)
    else
      match alookup conf.whitelist code with
      | none => (true, s1)
      | some limit =>
        if limit = -1 then (false, s1)
        else
          let counters : List (String × Nat) := match s1.file with
            | some f => f.counters
            | none => []
          (decide (limit ≤ (((alookup counters code).getD 0 : Nat) : Int)), s1)

/-! ## `cos/collector/remote_config.py` — `RemoteConfig.read_config`

The two network calls `get_config_version()` / `get_config()` are the
oracle inputs, as `Except Unit` values; the on-disk cache file
`{version, value}` is an `Option CacheEntry` (the source compares versions
through `str(...)` on both sides, so the version is modelled as the
resulting string).  Config values are JSON objects, modelled as
association lists so that the `content.get("value", {})` default `{}` is
`[]`. -/

abbrev ConfigValue := List (String × String)

structure CacheEntry where
  version : String
  value : ConfigValue
  deriving Repr, DecidableEq

structure ReadConfigResult where
  result : ConfigValue
  getConfigCalled : Bool
  newCache : Option CacheEntry
  deriving Repr, DecidableEq

/-- `content.get("value", {})` for the loaded cache file. -/
def cachedValueOf (cached : Option CacheEntry) : ConfigValue :=
  match cached with
  | some e => e.value
  | none => []

/-- `content.get("version", "")` for the loaded cache file. -/
def cachedVersionOf (cached : Option CacheEntry) : String :=
  match cached with
  | some e => e.version
  | none => ""

/-- `RemoteConfig.read_config` (remote_config.py lines 40-71).  Mirrors the
source: with caching enabled it loads the cache file, asks for the version
(falling back to the cached value on failure, without calling
`get_config()`), short-circuits on version equality, otherwise fetches the
config (falling back to the cached value on failure) and rewrites the cache
file only when the fetched value is truthy. -/
def readConfig (enableCache : Bool) (cached : Option CacheEntry)
    (versionCall : Except Unit String) (configCall : Except Unit ConfigValue) :
    ReadConfigResult :=
  if enableCache then
    match versionCall with
    | .error _ =>
      { result := cachedValueOf cached, getConfigCalled := false, newCache := cached }
    | .ok v =>
      if cachedVersionOf cached = v then
        { result := cachedValueOf cached, getConfigCalled := false, newCache := cached }
      else
        match configCall with
        | .error _ =>
          { result := cachedValueOf cached, getConfigCalled := true, newCache := cached }
        | .ok c =>
          { result := c, getConfigCalled := true,
            newCache := if c.isEmpty then cached else some { version := v, value := c } }
  else
    match configCall with
    | .error _ => { result := [], getConfigCalled := true, newCache := cached }
    | .ok c => { result := c, getConfigCalled := true, newCache := cached }

/-! ## `cos/utils/uploader.py` — `S3MultipartUploader.upload`

The file being uploaded is modelled by its byte count `n`; a read of
`part_size` bytes at position `pos` yields `min part_size (n - pos)` bytes
(`0` at EOF).  The S3 calls are recorded as a trace of
`(PartNumber, offset, length)` triples, the manifest JSON as a `Manifest`
(ETags carry no information the claims use, so `parts` keeps the
`PartNumber`s), and every `request_hook.increase_upload_bytes` call made on
the per-part path is recorded in `meterAdds` with the exact argument the
source passes — which is the running total `uploaded_bytes`
(uploader.py line 163), not `len(data)`. -/

structure Manifest where
  currentPartNumber : Nat
  totalBytes : Nat
  uploadedBytes : Nat
  partSize : Nat
  parts : List Nat
  deriving Repr, DecidableEq

structure UploadOutcome where
  manifest : Manifest
  uploadedParts : List (Nat × Nat × Nat)
  meterAdds : List Nat
  completed : Bool
  fileMissing : Bool
  deriving Repr, DecidableEq

/-- `total_parts = (file_total_bytes + self.part_size_bytes - 1) //
self.part_size_bytes` (uploader.py line 131). -/
def totalPartsOf (totalBytes partSize : Nat) : Nat :=
  (totalBytes + partSize - 1) / partSize

/-- The `for curr_part_num in range(starting_part_num, total_parts + 1)`
loop of `upload` (uploader.py lines 138-176).  `fuel` only bounds the
recursion; the loop exits through the same conditions as the source
(`curr > totalParts`, or a zero-length read).  Returns the manifest, the
trace of uploaded parts, the meter feeds, and the final value of the Python
variable `curr_part_num` (which keeps its pre-loop binding `1` when the
range is empty). -/
def uploadLoop (n partSize totalParts : Nat) :
    Nat → Nat → Nat → Manifest → List (Nat × Nat × Nat) → List Nat →
    Manifest × List (Nat × Nat × Nat) × List Nat × Nat
  | 0, curr, _, m, trace, meter => (m, trace.reverse, meter.reverse, curr)
  | fuel + 1, curr, pos, m, trace, meter =>
    if curr > totalParts then
      -- range exhausted; Python's loop variable keeps its previous value
      (m, trace.reverse, meter.reverse, if trace.isEmpty then 1 else curr - 1)
    else
      let len := min partSize (n - pos)
      if len = 0 then
        -- `if not len(data): break`
        (m, trace.reverse, meter.reverse, curr)
      else
        let uploaded := m.uploadedBytes + len
        let m' : Manifest :=
          { m with currentPartNumber := curr + 1,
                   uploadedBytes := uploaded,
                   parts := m.parts ++ [curr] }
        uploadLoop n partSize totalParts fuel (curr + 1) (pos + len) m'
          ((curr, pos, len) :: trace) (uploaded :: meter)

/-- `S3MultipartUploader.upload` (uploader.py lines 106-180).  `manifest0`
is the parsed resume manifest if `.{name}_multipart.json` exists, else the
uploader first runs `_create` (lines 56-83), which writes
`{current_part_number: 1, total_bytes: stat(file).st_size,
uploaded_bytes: 0, parts: [], part_size}`.  The file seek of line 136 puts
the read position at `(starting_part_num - 1) * part_size` (position `0`
when `starting_part_num` is `1` and no seek happens). -/
def s3Upload (fileExists : Bool) (n partSize : Nat) (manifest0 : Option Manifest) :
    UploadOutcome :=
  if ¬fileExists then
    { manifest := { currentPartNumber := 0, totalBytes := 0, uploadedBytes := 0,
                    partSize := 0, parts := [] },
      uploadedParts := [], meterAdds := [], completed := false, fileMissing := true }
  else
    let m0 : Manifest :=
      match manifest0 with
      | some m => m
      | none =>
        { currentPartNumber := 1, totalBytes := n, uploadedBytes := 0,
          partSize := partSize, parts := [] }
    let starting := m0.currentPartNumber
    let totalParts := totalPartsOf m0.totalBytes partSize
    let pos0 := if starting > 1 then (starting - 1) * partSize else 0
    let r := uploadLoop n partSize totalParts (totalParts + 1 - starting + 1)
      starting pos0 m0 [] []
    { manifest := r.1, uploadedParts := r.2.1, meterAdds := r.2.2.1,
      completed := decide (r.2.2.2 = totalParts), fileMissing := false }

/-! ## `cos/collector/collector.py` — `Collector.handle_record`

The platform client, the filesystem and the code limiter are modelled as an
environment of oracles; `handle_record` returns the updated `RecordCache`
together with the ordered trace of the externally visible operations it
performed.  The interesting branch structure (collector.py lines 142-216)
is translated in full; the payload details of record/event creation
(titles, descriptions, thumbnails) carry no information the claims use and
are not tracked beyond the call itself. -/

inductive CollectorCall where
  | setProjectName (p : String)
  | updateTaskState (task : String) (st : String)
  | createOrGetRecord
  | createEvent
  | createTask
  | hitCode (c : String)
  | resumableUploadFiles
  | uploadFinishFlag
  | updateRecord
  | putTaskTags (task : String)
  | saveState
  | deleteCacheDir
  deriving Repr, DecidableEq

structure CollectorEnv where
  /-- `self.code_mgr.is_over_limit(code)` -/
  isOverLimit : String → Bool
  /-- `f.filepath.is_file()` for a `file_info` -/
  fileIsFile : String → Bool
  /-- the `name` of the record returned by `create_or_get_record` -/
  createdRecordName : String
  /-- `rc.list_files()` membership after hard-linking -/
  fileSurvives : String → Bool
  /-- result of `api.resumable_upload_files` for the payload files -/
  uploadAllCompleted : Bool
  /-- result of `_upload_finish_flag_file` -/
  finishFlagUploaded : Bool
  /-- `collector.delete_after_upload` -/
  deleteAfterUpload : Bool
  /-- `rc.base_dir_path`, the record's cache directory -/
  baseDir : String

/-- `Collector.handle_record` (collector.py lines 142-216).  Branches, in
source order: project narrowing; the `skipped` early exit; the over-limit
skip transition (lines 155-164); otherwise record creation when
`record.get("name")` is falsy (lines 168-183: hard-link surviving
`file_infos`, `create_or_get_record`, persist, `hit`), then the upload
phase when not yet `uploaded` (lines 186-216).  A moment's `task` field is
a pydantic model (always truthy), so `create_task` runs for every moment. -/
def handleRecord (env : CollectorEnv) (rc : RecordCache) : RecordCache × List CollectorCall :=
  let projCalls := [CollectorCall.setProjectName rc.projectName]
  if rc.skipped then
    (rc, projCalls)
  else if rc.recordName = "" ∧ rc.eventCode ≠ "" ∧ env.isOverLimit rc.eventCode then
    let taskCalls :=
      if rc.taskName ≠ "" then [CollectorCall.updateTaskState rc.taskName "SUCCEEDED"]
      else []
    ({ rc with skipped := true },
      projCalls ++ taskCalls ++ [CollectorCall.saveState, CollectorCall.deleteCacheDir])
  else
    let (rc1, calls1) :=
      if rc.recordName = "" then
        let fis := (rc.fileInfos.filter
            (fun f => env.fileIsFile f.filepath ∧ f.filename ≠ "finish.flag")).map
          (fun f => { filepath := env.baseDir ++ "/" ++ f.filename,
                      filename := f.filename : FileInfo })
        let momentCalls := (List.range rc.momentCount).flatMap
          (fun _ => [CollectorCall.createEvent, CollectorCall.createTask])
        ({ rc with recordName := env.createdRecordName, fileInfos := fis },
          [CollectorCall.createOrGetRecord] ++ momentCalls ++
            [CollectorCall.saveState, CollectorCall.hitCode rc.eventCode])
      else
        (rc, [])
    if ¬rc1.uploaded then
      let rc2 := { rc1 with fileInfos := rc1.fileInfos.filter (env.fileSurvives ·.filepath) }
      let uploadCalls := [CollectorCall.resumableUploadFiles]
      if env.uploadAllCompleted then
        if ¬env.finishFlagUploaded then
          (rc2, projCalls ++ calls1 ++ uploadCalls ++ [CollectorCall.uploadFinishFlag])
        else
          let taskCalls :=
            if rc2.taskName ≠ "" then
              [CollectorCall.putTaskTags rc2.taskName,
               CollectorCall.updateTaskState rc2.taskName "SUCCEEDED"]
            else []
          let deleteCalls :=
            if env.deleteAfterUpload then [CollectorCall.deleteCacheDir] else []
          ({ rc2 with uploaded := true },
            projCalls ++ calls1 ++ uploadCalls ++
              [CollectorCall.uploadFinishFlag, CollectorCall.updateRecord] ++ taskCalls ++
              [CollectorCall.saveState] ++ deleteCalls)
      else
        (rc2, projCalls ++ calls1 ++ uploadCalls)
    else
      (rc1, projCalls ++ calls1)

/-! ## `cos/mods/common/default/file_state_handler.py` — the file-state index

An index entry is the JSON object stored per absolute path.  The four
handlers (`log_handler.py` lines 54-84, `mcap_handler.py` lines 46-62,
`ros1_handler.py` lines 40-51, `ros2_handler.py` lines 62-75) write either
`{size, start_time, end_time[, is_dir]}` or — for the log handler's
extraction failure and for `update_dir`'s exception path
(file_state_handler.py lines 133-143) — `{size, unsupported: true}`.
`static_file_diagnosis` (lines 147-170) adds `processed: true` to an entry
that already exists, via `__update_file_state` (lines 107-112), which skips
missing entries.  `__update_deleted_file_state` (lines 114-119) only
removes entries.  `IndexOp` enumerates exactly these writes. -/

structure FileStateEntry where
  size : Int
  startTime : Option Int := none
  endTime : Option Int := none
  unsupported : Bool := false
  isDir : Bool := false
  processed : Bool := false
  deriving Repr, DecidableEq

abbrev FileStateMap := List (String × FileStateEntry)

inductive IndexOp where
  /-- a handler's `update_func(path, {size, start_time, end_time[, is_dir]})` -/
  | insertTimes (path : String) (size startTime endTime : Int) (isDir : Bool)
  /-- `{size, unsupported: True}` from the log handler or `update_dir`'s
  `except` branch -/
  | insertUnsupported (path : String) (size : Int)
  /-- `__update_file_state(path, "processed", True)` from
  `static_file_diagnosis` -/
  | setProcessed (path : String)
  /-- `__del_file_state(path)` from `__update_deleted_file_state` -/
  | remove (path : String)
  deriving Repr, DecidableEq

def applyIndexOp (m : FileStateMap) : IndexOp → FileStateMap
  | .insertTimes path size s e isDir =>
    aset m path { size := size, startTime := some s, endTime := some e, isDir := isDir }
  | .insertUnsupported path size =>
    aset m path { size := size, unsupported := true }
  | .setProcessed path =>
    match alookup m path with
    | none => m
    | some entry => aset m path { entry with processed := true }
  | .remove path => m.filter (fun p => p.1 ≠ path)

def applyIndexOps (ops : List IndexOp) : FileStateMap :=
  ops.foldl applyIndexOp []

/-- The shape every index entry must have for `get_files`'s range test to
be defined: either `unsupported` is set, or both `start_time` and
`end_time` are present. -/
def entryWellFormed (e : FileStateEntry) : Prop :=
  e.unsupported = true ∨ (e.startTime.isSome ∧ e.endTime.isSome)

/-- `FileStateHandler.get_files` (file_state_handler.py lines 172-189): the
entries of `dir` with the wanted `is_dir` flag, not `unsupported`, whose
`[start_time, end_time]` overlaps `[start_time_arg, end_time_arg]`.  The
source reads `file_state.get("start_time")` / `.get("end_time")` without a
default, so the comparison is only defined when both keys exist;
`entryWellFormed` (claim C10) guarantees it on every entry that survives
the `unsupported` test.  `parentDir` stands for `Path(filename).parent`. -/
def parentDir (p : String) : String :=
  let comps := p.splitOn "/"
  String.intercalate "/" (comps.take (comps.length - 1))

def getFiles (m : FileStateMap) (dirPath : String) (startTime endTime : Int)
    (getDir : Bool) : List String :=
  (m.filter (fun p =>
    parentDir p.1 = dirPath ∧
    ¬p.2.unsupported ∧
    (p.2.startTime.getD 0 ≤ endTime ∧ startTime ≤ p.2.endTime.getD 0) ∧
    p.2.isDir = getDir)).map (·.1)

/-! ## `cos/mods/common/default/mod.py` —
`DefaultMod.__find_files_and_update_error_json`

The sweep (mod.py lines 130-208) first re-checks the upload-request JSON
(`flag` present and false, `cut` present, `cut.end` reached) and then runs
`file_state_handler.update_dirs(source_dirs)` (line 143).  Attribute
lookup on the `FileStateHandler` instance is modelled against the method
names actually defined in file_state_handler.py; `update_dirs` is not
among them, so in this code base the lookup raises `AttributeError` and
nothing after line 143 executes — there is no `update_dirs` source to
translate, hence the post-lookup remainder of the function is
unreachable and represented by the same error. -/

/-- The methods `class FileStateHandler` defines (file_state_handler.py;
double-underscore names are listed with their Python name-mangled form). -/
def fileStateHandlerMethodNames : List String :=
  ["state_path", "get_instance", "load_state", "save_state",
   "get_file_state", "update_dir", "static_file_diagnosis", "get_files",
   "_FileStateHandler__register_file_handlers",
   "_FileStateHandler__set_file_state",
   "_FileStateHandler__del_file_state",
   "_FileStateHandler__update_file_state",
   "_FileStateHandler__update_deleted_file_state"]

inductive PyErr where
  | attributeError
  deriving Repr, DecidableEq

/-- The fields of an upload-request JSON that the sweep reads or writes. -/
structure ErrorJson where
  hasFlag : Bool
  flag : Bool
  hasCut : Bool
  cutStart : Int := 0
  cutEnd : Int := 0
  extraFiles : List String := []
  bag : List String := []
  log : List String := []
  files : List String := []
  dirs : List String := []
  zips : List String := []
  startTime : Option Int := none
  pathsToDelete : List String := []
  deriving Repr, DecidableEq

/-- `DefaultMod.__find_files_and_update_error_json` (mod.py lines
130-208) on one upload-request JSON, with `now` for
`datetime.now().timestamp()`.  The guards of lines 134-137 return without
touching the file; past them, line 143's `file_state_handler.update_dirs(...)`
is an attribute access that fails (`update_dirs` is not a method of
`FileStateHandler`), so the call raises before any part of the
gather-and-rewrite logic can run; both match arms therefore produce the
same `AttributeError` (the `some` arm is dead code: the lookup is proved
to fail below). -/
def findFilesAndUpdateErrorJson (ej : ErrorJson) (now : Int) : Except PyErr ErrorJson :=
  if ¬ej.hasFlag ∨ ej.flag ∨ ¬ej.hasCut then .ok ej
  else if now < ej.cutEnd then .ok ej
  else
    match fileStateHandlerMethodNames.find? (· = "update_dirs") with
    | none => .error .attributeError
    | some _ => .error .attributeError

/-- One pass of `DefaultMod.run`'s per-JSON loop (mod.py lines 292-299):
the `try/except Exception` swallows the error, so the on-disk JSON is left
exactly as it was. -/
def sweepHandleErrorJson (ej : ErrorJson) (now : Int) : ErrorJson :=
  match findFilesAndUpdateErrorJson ej now with
  | .error _ => ej
  | .ok ej' => ej'

/-! ## `cos/mods/common/default/log_utils.py` — log timestamp extraction

The regex patterns `hint_options` / `ts_schema` and the `strptime` formats
paired with them are embedded as token lists with Python `re.search`
semantics (leftmost match, greedy quantifiers with backtracking, `.` not
matching a newline, `\d`/`\s` on the ASCII inputs in scope).  `strptime`
is CPython `_strptime`: per-directive sub-regexes, a full-match check
("unconverted data remains"), and calendar validation by the `datetime`
constructor.  All scanned files here are ASCII, so one char is one byte
and the detected encoding is `utf8` (`get_file_encoding` maps everything
but GB2312 to `utf8`).  Recursions carry explicit fuel so that every
definition is structural and evaluates inside the kernel; the fuel
supplied at each call site strictly exceeds the recursion depth the
source's loops can reach. -/

def pyIsDigit (c : Char) : Bool := c.isDigit

def pyIsSpace (c : Char) : Bool :=
  c = ' ' ∨ c = '\t' ∨ c = '\n' ∨ c = '\x0b' ∨ c = '\x0c' ∨ c = '\r'

def pyIsAlpha (c : Char) : Bool :=
  ('a' ≤ c ∧ c ≤ 'z') ∨ ('A' ≤ c ∧ c ≤ 'Z')

/-- The regex constructs the patterns of log_utils.py use: `\d{n}`,
`\d{1,2}`, a literal character, `.`, `\s+`, `[a-zA-Z]{3}`. -/
inductive RTok where
  | digits (n : Nat)
  | digit12
  | lit (c : Char)
  | anyChar
  | spaces
  | alpha3
  deriving Repr, DecidableEq

mutual

/-- Try to match the token list at the head of `s`; `some n` is the length
of the (leftmost, greedy-with-backtracking) match. -/
def matchToksF : Nat → List RTok → List Char → Option Nat
  | 0, _, _ => none
  | fuel + 1, toks, s =>
    match toks with
    | [] => some 0
    | .digits n :: rest =>
      let pre := s.take n
      if pre.length = n ∧ pre.all pyIsDigit then
        (matchToksF fuel rest (s.drop n)).map (n + ·)
      else none
    | .digit12 :: rest =>
      let try2 :=
        match s with
        | a :: b :: s' =>
          if pyIsDigit a ∧ pyIsDigit b then (matchToksF fuel rest s').map (2 + ·) else none
        | _ => none
      (match try2 with
       | some r => some r
       | none =>
         match s with
         | a :: s' => if pyIsDigit a then (matchToksF fuel rest s').map (1 + ·) else none
         | [] => none)
    | .lit c :: rest =>
      match s with
      | x :: s' => if x = c then (matchToksF fuel rest s').map (1 + ·) else none
      | [] => none
    | .anyChar :: rest =>
      match s with
      | x :: s' => if x ≠ '\n' then (matchToksF fuel rest s').map (1 + ·) else none
      | [] => none
    | .alpha3 :: rest =>
      match s with
      | a :: b :: c :: s' =>
        if pyIsAlpha a ∧ pyIsAlpha b ∧ pyIsAlpha c then
          (matchToksF fuel rest s').map (3 + ·)
        else none
      | _ => none
    | .spaces :: rest =>
      let run := (s.takeWhile pyIsSpace).length
      matchSpacesF fuel rest s run

/-- Greedy `\s+`: try the maximal whitespace run first, then backtrack. -/
def matchSpacesF : Nat → List RTok → List Char → Nat → Option Nat
  | 0, _, _, _ => none
  | fuel + 1, rest, s, k =>
    match k with
    | 0 => none
    | k' + 1 =>
      match matchToksF fuel rest (s.drop (k' + 1)) with
      | some r => some (k' + 1 + r)
      | none => matchSpacesF fuel rest s k'

end

/-- `re.search`: the leftmost position where the pattern matches; returns
the matched substring. -/
def searchF (fuel : Nat) (toks : List RTok) : List Char → Option (List Char)
  | [] =>
    match matchToksF fuel toks [] with
    | some n => some (([] : List Char).take n)
    | none => none
  | c :: s' =>
    match matchToksF fuel toks (c :: s') with
    | some n => some ((c :: s').take n)
    | none => searchF fuel toks s'

def reSearch (toks : List RTok) (s : List Char) : Option (List Char) :=
  searchF (s.length + toks.length + 16) toks s

/-! ### `datetime.strptime` for the formats in scope -/

/-- The `strptime` directives the log_utils.py formats use, plus literal
characters; whitespace in a format is `\s+` (CPython `TimeRE`), written
`ws`. -/
inductive FTok where
  | Y | m | d | H | M | S | f | b | ws
  | lit (c : Char)
  deriving Repr, DecidableEq

/-- A parsed `datetime`, always carrying `tzinfo=timezone(timedelta(hours=8))`
in the source, so the offset is kept implicit here. -/
structure PyDateTime where
  y : Nat
  mo : Nat
  d : Nat
  h : Nat
  mi : Nat
  s : Nat
  us : Nat
  deriving Repr, DecidableEq

def isLeapYear (y : Nat) : Bool := y % 4 = 0 ∧ (y % 100 ≠ 0 ∨ y % 400 = 0)

def daysInMonth (y mo : Nat) : Nat :=
  if mo = 2 then (if isLeapYear y then 29 else 28)
  else if mo = 4 ∨ mo = 6 ∨ mo = 9 ∨ mo = 11 then 30
  else 31

def digitVal (c : Char) : Nat := c.toNat - '0'.toNat

/-- Two-digits-or-one alternation used by the `%m`/`%d`/`%H`/`%M`/`%S`
sub-regexes: take two digits when the two-digit alternative matches, else
one. -/
def parse2or1 (valid2 : Char → Char → Bool) (valid1 : Char → Bool)
    (s : List Char) : Option (Nat × List Char) :=
  match s with
  | a :: b :: s' =>
    if valid2 a b then some (digitVal a * 10 + digitVal b, s')
    else if valid1 a then some (digitVal a, b :: s')
    else none
  | [a] => if valid1 a then some (digitVal a, []) else none
  | [] => none

def monthOfAbbrev (a b c : Char) : Option Nat :=
  let low := fun x : Char => x.toLower
  match (low a, low b, low c) with
  | ('j', 'a', 'n') => some 1
  | ('f', 'e', 'b') => some 2
  | ('m', 'a', 'r') => some 3
  | ('a', 'p', 'r') => some 4
  | ('m', 'a', 'y') => some 5
  | ('j', 'u', 'n') => some 6
  | ('j', 'u', 'l') => some 7
  | ('a', 'u', 'g') => some 8
  | ('s', 'e', 'p') => some 9
  | ('o', 'c', 't') => some 10
  | ('n', 'o', 'v') => some 11
  | ('d', 'e', 'c') => some 12
  | _ => none

/-- One directive of `_strptime`'s compiled regex. -/
def parseFTok (t : FTok) (s : List Char) (dt : PyDateTime) :
    Option (PyDateTime × List Char) :=
  match t with
  | .Y =>
    match s with
    | a :: b :: c :: d :: s' =>
      if pyIsDigit a ∧ pyIsDigit b ∧ pyIsDigit c ∧ pyIsDigit d then
        some ({ dt with y := digitVal a * 1000 + digitVal b * 100 +
                             digitVal c * 10 + digitVal d }, s')
      else none
    | _ => none
  | .m =>
    (parse2or1
      (fun a b => (a = '1' ∧ '0' ≤ b ∧ b ≤ '2') ∨ (a = '0' ∧ '1' ≤ b ∧ b ≤ '9'))
      (fun a => '1' ≤ a ∧ a ≤ '9') s).map (fun r => ({ dt with mo := r.1 }, r.2))
  | .d =>
    (parse2or1
      (fun a b => (a = '3' ∧ (b = '0' ∨ b = '1')) ∨
                  ((a = '1' ∨ a = '2') ∧ pyIsDigit b) ∨
                  (a = '0' ∧ '1' ≤ b ∧ b ≤ '9'))
      (fun a => '1' ≤ a ∧ a ≤ '9') s).map (fun r => ({ dt with d := r.1 }, r.2))
  | .H =>
    (parse2or1
      (fun a b => (a = '2' ∧ '0' ≤ b ∧ b ≤ '3') ∨ ((a = '0' ∨ a = '1') ∧ pyIsDigit b))
      pyIsDigit s).map (fun r => ({ dt with h := r.1 }, r.2))
  | .M =>
    (parse2or1 (fun a b => '0' ≤ a ∧ a ≤ '5' ∧ pyIsDigit b) pyIsDigit s).map
      (fun r => ({ dt with mi := r.1 }, r.2))
  | .S =>
    (parse2or1
      (fun a b => (a = '6' ∧ (b = '0' ∨ b = '1')) ∨ ('0' ≤ a ∧ a ≤ '5' ∧ pyIsDigit b))
      pyIsDigit s).map (fun r => ({ dt with s := r.1 }, r.2))
  | .f =>
    let ds := (s.takeWhile pyIsDigit).take 6
    if ds.isEmpty then none
    else
      let v := ds.foldl (fun acc c => acc * 10 + digitVal c) 0
      let scaled := v * 10 ^ (6 - ds.length)
      some ({ dt with us := scaled }, s.drop ds.length)
  | .b =>
    match s with
    | a :: b :: c :: s' =>
      match monthOfAbbrev a b c with
      | some mo => some ({ dt with mo := mo }, s')
      | none => none
    | _ => none
  | .ws =>
    match s with
    | a :: s' =>
      if pyIsSpace a then some (dt, (a :: s').dropWhile pyIsSpace) else none
    | [] => none
  | .lit c =>
    match s with
    | x :: s' => if x = c then some (dt, s') else none
    | [] => none

def parseFToks (ts : List FTok) (s : List Char) (dt : PyDateTime) :
    Option PyDateTime :=
  match ts with
  | [] => if s.isEmpty then some dt else none
  | t :: rest =>
    match parseFTok t s dt with
    | some (dt', s') => parseFToks rest s' dt'
    | none => none

/-- `datetime.strptime(data, format)` for the formats in scope: directive
parsing over the whole string (missing fields default to 1900-01-01
00:00:00.0), then the calendar validation the `datetime` constructor
performs. -/
def pyStrptime (ts : List FTok) (s : List Char) : Option PyDateTime :=
  match parseFToks ts s { y := 1900, mo := 1, d := 1, h := 0, mi := 0, s := 0, us := 0 } with
  | none => none
  | some dt => if dt.d ≤ daysInMonth dt.y dt.mo then some dt else none

/-! ### Epoch arithmetic at the fixed UTC+08:00 offset -/

/-- Days since 1970-01-01 of a civil date (Hinnant's `days_from_civil`);
Python `//` is floor division, hence `Int.fdiv`. -/
def daysFromCivil (y m d : Int) : Int :=
  let y' := if m ≤ 2 then y - 1 else y
  let era := y'.fdiv 400
  let yoe := y' - era * 400
  let mp := (m + 9) % 12
  let doy := (153 * mp + 2).fdiv 5 + d - 1
  let doe := yoe * 365 + yoe.fdiv 4 - yoe.fdiv 100 + doy
  era * 146097 + doe - 719468

/-- Civil date of a day count since 1970-01-01 (Hinnant's
`civil_from_days`). -/
def civilFromDays (z0 : Int) : Int × Int × Int :=
  let z := z0 + 719468
  let era := z.fdiv 146097
  let doe := z - era * 146097
  let yoe := (doe - doe.fdiv 1460 + doe.fdiv 36524 - doe.fdiv 146096).fdiv 365
  let y := yoe + era * 400
  let doy := doe - (365 * yoe + yoe.fdiv 4 - yoe.fdiv 100)
  let mp := (5 * doy + 2).fdiv 153
  let d := doy - (153 * mp + 2).fdiv 5 + 1
  let m := mp + (if mp < 10 then 3 else -9)
  (y + (if m ≤ 2 then 1 else 0), m, d)

/-- `.timestamp()` of an aware datetime at UTC+08:00, whole seconds. -/
def dtToEpoch8 (dt : PyDateTime) : Int :=
  daysFromCivil dt.y dt.mo dt.d * 86400 +
    dt.h * 3600 + dt.mi * 60 + dt.s - 28800

/-- The instant of an aware datetime in microseconds; aware datetimes
compare by instant. -/
def dtInstant (dt : PyDateTime) : Int := dtToEpoch8 dt * 1000000 + dt.us

/-- `int(dt.timestamp())`: truncation toward zero of the fractional epoch
value `seconds + us/10⁶`. -/
def pyIntTimestamp (dt : PyDateTime) : Int :=
  let sec := dtToEpoch8 dt
  if sec < 0 ∧ dt.us > 0 then sec + 1 else sec

/-- `dt + timedelta(days=n)`: with a fixed offset the clock fields shift by
whole civil days. -/
def dtAddDays (dt : PyDateTime) (n : Int) : PyDateTime :=
  let c := civilFromDays (daysFromCivil dt.y dt.mo dt.d + n)
  { dt with y := c.1.toNat, mo := c.2.1.toNat, d := c.2.2.toNat }

/-- `dt.replace(year=y, month=mo, day=d)`; raises `ValueError` (`none`) on
an invalid calendar date. -/
def dtReplaceYMD (dt : PyDateTime) (y mo d : Nat) : Option PyDateTime :=
  if 1 ≤ mo ∧ mo ≤ 12 ∧ 1 ≤ d ∧ d ≤ daysInMonth y mo then
    some { dt with y := y, mo := mo, d := d }
  else none

/-- `dt.replace(year=y)`. -/
def dtReplaceY (dt : PyDateTime) (y : Nat) : Option PyDateTime :=
  if 1 ≤ dt.mo ∧ dt.mo ≤ 12 ∧ 1 ≤ dt.d ∧ dt.d ≤ daysInMonth y dt.mo then
    some { dt with y := y }
  else none

/-! ### The patterns and formats of log_utils.py -/

/-- One entry of `hint_options` / `ts_schema`: the regex, the strptime
format, and whether the format mentions `%Y` / `%d` (what
`get_timestamp_with_hint` inspects). -/
structure LinePattern where
  toks : List RTok
  ftoks : List FTok
  hasY : Bool
  hasD : Bool

def hintOptions : List LinePattern :=
  [ -- r"\d{4}-\d{2}-\d{2}\s+\d{2}:\d{2}:\d{2}" , "%Y-%m-%d %H:%M:%S"
    { toks := [.digits 4, .lit '-', .digits 2, .lit '-', .digits 2, .spaces,
               .digits 2, .lit ':', .digits 2, .lit ':', .digits 2],
      ftoks := [.Y, .lit '-', .m, .lit '-', .d, .ws, .H, .lit ':', .M, .lit ':', .S],
      hasY := true, hasD := true },
    -- r"\d{4}/\d{2}/\d{2}\s+\d{2}:\d{2}:\d{2}" , "%Y/%m/%d %H:%M:%S"
    { toks := [.digits 4, .lit '/', .digits 2, .lit '/', .digits 2, .spaces,
               .digits 2, .lit ':', .digits 2, .lit ':', .digits 2],
      ftoks := [.Y, .lit '/', .m, .lit '/', .d, .ws, .H, .lit ':', .M, .lit ':', .S],
      hasY := true, hasD := true },
    -- r"\d{10}" , "%Y%m%d%H"
    { toks := [.digits 10],
      ftoks := [.Y, .m, .d, .H],
      hasY := true, hasD := true } ]

def tsSchema : List LinePattern :=
  [ -- r"\d{4}-\d{2}-\d{2}\s+\d{2}:\d{2}:\d{2}.\d{3}" , "%Y-%m-%d %H:%M:%S.%f"
    { toks := [.digits 4, .lit '-', .digits 2, .lit '-', .digits 2, .spaces,
               .digits 2, .lit ':', .digits 2, .lit ':', .digits 2, .anyChar, .digits 3],
      ftoks := [.Y, .lit '-', .m, .lit '-', .d, .ws, .H, .lit ':', .M, .lit ':', .S,
                .lit '.', .f],
      hasY := true, hasD := true },
    -- r"\d{4}-\d{2}-\d{2}\s+\d{2}:\d{2}:\d{2},\d{3}" , "%Y-%m-%d %H:%M:%S,%f"
    { toks := [.digits 4, .lit '-', .digits 2, .lit '-', .digits 2, .spaces,
               .digits 2, .lit ':', .digits 2, .lit ':', .digits 2, .lit ',', .digits 3],
      ftoks := [.Y, .lit '-', .m, .lit '-', .d, .ws, .H, .lit ':', .M, .lit ':', .S,
                .lit ',', .f],
      hasY := true, hasD := true },
    -- r"\d{4}\s+\d{2}:\d{2}:\d{2}.\d{6}" , "%m%d %H:%M:%S.%f"
    { toks := [.digits 4, .spaces, .digits 2, .lit ':', .digits 2, .lit ':', .digits 2,
               .anyChar, .digits 6],
      ftoks := [.m, .d, .ws, .H, .lit ':', .M, .lit ':', .S, .lit '.', .f],
      hasY := false, hasD := true },
    -- r"[a-zA-Z]{3}\s+\d{1,2}\s+\d{2}:\d{2}:\d{2}" , "%b %d %H:%M:%S"
    { toks := [.alpha3, .spaces, .digit12, .spaces, .digits 2, .lit ':', .digits 2,
               .lit ':', .digits 2],
      ftoks := [.b, .ws, .d, .ws, .H, .lit ':', .M, .lit ':', .S],
      hasY := false, hasD := true },
    -- r"\d{2}:\d{2}:\d{2}.\d{3}" , "%H:%M:%S.%f"
    { toks := [.digits 2, .lit ':', .digits 2, .lit ':', .digits 2, .anyChar, .digits 3],
      ftoks := [.H, .lit ':', .M, .lit ':', .S, .lit '.', .f],
      hasY := false, hasD := false } ]

/-- `get_timestamp_with_hint` (log_utils.py lines 70-100).  The source's
datetime comparisons are between aware datetimes (compared by instant);
`now` models the `datetime.now()` clock fields, which the source tags with
UTC+08:00 before comparing.  `none` is a `ValueError` escaping from
`.replace`, which the caller's `except ValueError` treats like a parse
failure. -/
def getTimestampWithHint (dt : PyDateTime) (hint : Option PyDateTime)
    (hasY hasD : Bool) (now : PyDateTime) : Option PyDateTime :=
  match hint with
  | some h =>
    if ¬hasD then
      match dtReplaceYMD dt h.y h.mo h.d with
      | none => none
      | some cand =>
        if dtInstant cand < dtInstant h then some (dtAddDays cand 1) else some cand
    else if ¬hasY then
      match dtReplaceY dt h.y with
      | none => none
      | some cand =>
        if dtInstant cand < dtInstant h then dtReplaceY cand (h.y + 1) else some cand
    else some dt
  | none =>
    if ¬hasD then
      match dtReplaceYMD dt now.y now.mo now.d with
      | none => none
      | some cand =>
        if dtInstant cand > dtInstant now then some (dtAddDays cand (-1)) else some cand
    else if ¬hasY then
      match dtReplaceY dt now.y with
      | none => none
      | some cand =>
        if dtInstant cand > dtInstant now then dtReplaceY cand (now.y - 1) else some cand
    else some dt

/-- `get_timestamp_from_line` (log_utils.py lines 103-115): try the
`ts_schema` entries in order; a regex match whose `strptime` (or
`get_timestamp_with_hint`) raises `ValueError` falls through to the next
schema. -/
def tryLinePatterns (ps : List LinePattern) (line : List Char)
    (hint : Option PyDateTime) (now : PyDateTime) : Option PyDateTime :=
  match ps with
  | [] => none
  | p :: rest =>
    match reSearch p.toks line with
    | none => tryLinePatterns rest line hint now
    | some matched =>
      match pyStrptime p.ftoks matched with
      | none => tryLinePatterns rest line hint now
      | some dt =>
        match getTimestampWithHint dt hint p.hasY p.hasD now with
        | none => tryLinePatterns rest line hint now
        | some r => some r

def getTimestampFromLine (line : List Char) (hint : Option PyDateTime)
    (now : PyDateTime) : Option PyDateTime :=
  tryLinePatterns tsSchema line hint now

/-- The inner `get_hint_from_text` of `get_timestamp_hint_from_file`
(log_utils.py lines 50-58): no hint post-processing, the parsed datetime
is returned as-is. -/
def getHintFromText (ps : List LinePattern) (text : List Char) : Option PyDateTime :=
  match ps with
  | [] => none
  | p :: rest =>
    match reSearch p.toks text with
    | none => getHintFromText rest text
    | some matched =>
      match pyStrptime p.ftoks matched with
      | none => getHintFromText rest text
      | some dt => some dt

/-- `f.readline()`: the first line of the file, trailing newline kept. -/
def firstLineOf (content : List Char) : List Char :=
  let head := content.takeWhile (· ≠ '\n')
  if head.length = content.length then head else head ++ ['\n']

/-- `get_timestamp_hint_from_file` (log_utils.py lines 44-67): the
filename first, then the first line. -/
def getTimestampHintFromFile (fileName content : List Char) : Option PyDateTime :=
  match getHintFromText hintOptions fileName with
  | some h => some h
  | none => getHintFromText hintOptions (firstLineOf content)

def CHUNK_SIZE : Nat := 16 * 1024
def BUFFER_SIZE : Nat := 512
def ATTEMPT_LIMIT : Nat := 5

/-- `str.splitlines()` on the ASCII line boundaries `\n`, `\r`, `\r\n`. -/
def pySplitlines : List Char → List Char → List (List Char)
  | [], acc => if acc.isEmpty then [] else [acc.reverse]
  | '\n' :: rest, acc => acc.reverse :: pySplitlines rest []
  | '\r' :: '\n' :: rest, acc => acc.reverse :: pySplitlines rest []
  | '\r' :: rest, acc => acc.reverse :: pySplitlines rest []
  | c :: rest, acc => pySplitlines rest (c :: acc)

/-- `get_start_timestamp` (log_utils.py lines 145-161): scan forward in
16 KiB chunks (plus the 512-byte buffer), at most 5 attempts. -/
def getStartTimestampLoop (content : List Char) (hint : Option PyDateTime)
    (now : PyDateTime) : Nat → Nat → Option Int
  | 0, _ => none
  | k + 1, attempt =>
    let startOffset := attempt * CHUNK_SIZE
    if startOffset ≥ content.length then none
    else
      let chunk := (content.drop startOffset).take (CHUNK_SIZE + BUFFER_SIZE)
      match getTimestampFromLine chunk hint now with
      | some t => some (pyIntTimestamp t)
      | none => getStartTimestampLoop content hint now k (attempt + 1)

def getStartTimestamp (fileName content : List Char) (now : PyDateTime) : Option Int :=
  let hint := getTimestampHintFromFile fileName content
  getStartTimestampLoop content hint now ATTEMPT_LIMIT 0

/-- The per-line scan of `get_end_timestamp`'s
`for line in reversed(chunk.splitlines())`. -/
def tryLinesForTimestamp (lines : List (List Char)) (hint : Option PyDateTime)
    (now : PyDateTime) : Option PyDateTime :=
  match lines with
  | [] => none
  | l :: rest =>
    match getTimestampFromLine l hint now with
    | some t => some t
    | none => tryLinesForTimestamp rest hint now

/-- `get_end_timestamp` (log_utils.py lines 123-142): scan backward in
16 KiB chunks, each read `CHUNK_SIZE + BUFFER_SIZE` characters long,
lines tried last-to-first. -/
def getEndTimestampLoop (content : List Char) (hint : Option PyDateTime)
    (now : PyDateTime) : Nat → Nat → Option Int
  | 0, _ => none
  | k + 1, attempt =>
    let endOffset : Int := (content.length : Int) - attempt * CHUNK_SIZE
    let startOffset : Int := max 0 (endOffset - CHUNK_SIZE - BUFFER_SIZE)
    if endOffset ≤ 0 then none
    else
      let chunk := (content.drop startOffset.toNat).take (CHUNK_SIZE + BUFFER_SIZE)
      match tryLinesForTimestamp (pySplitlines chunk []).reverse hint now with
      | some t => some (pyIntTimestamp t)
      | none => getEndTimestampLoop content hint now k (attempt + 1)

def getEndTimestamp (fileName content : List Char) (now : PyDateTime) : Option Int :=
  let hint := getTimestampHintFromFile fileName content
  getEndTimestampLoop content hint now ATTEMPT_LIMIT 0

/-- `LogHandler.update_path_state` (log_handler.py lines 54-84): the index
entry written for a `.log` file — `{size, start_time, end_time}` when both
extractions succeed, `{size, unsupported: true}` otherwise. -/
def logUpdatePathState (fileName content : List Char) (now : PyDateTime) :
    FileStateEntry :=
  match getStartTimestamp fileName content now with
  | none => { size := (content.length : Int), unsupported := true }
  | some s =>
    match getEndTimestamp fileName content now with
    | none => { size := (content.length : Int), unsupported := true }
    | some e =>
      { size := (content.length : Int), startTime := some s, endTime := some e }

/-- The S-1 scenario file: name and the two lines of content. -/
def s1FileName : List Char := "svc_20240115_12.log".toList

def s1Content : List Char :=
  ("2024-01-15 12:00:00,123 INFO start\n" ++
   "2024-01-15 12:05:42.000 INFO done").toList

/-! ## Derived definitions and concrete scenario inputs used by the theorems -/

/-- A sequence of `hit` calls, each with its own clock reading. -/
def hitMany (conf : EventCodeConfig) (hits : List (Int × String)) (s : CodeMgrState) :
    CodeMgrState :=
  hits.foldl (fun st p => hit conf p.1 p.2 st) s

/-- The counters map produced by a sequence of `hit` calls that trigger no
reset. -/
def countersAfter (c0 : List (String × Nat)) (hits : List (Int × String)) :
    List (String × Nat) :=
  hits.foldl
    (fun m p => if p.2 = "" then m else aset m p.2 ((alookup m p.2).getD 0 + 1)) c0

/-- The S-4 limiter configuration: whitelist `{200:2, 404:-1, 500:2}`. -/
def s4Conf : EventCodeConfig :=
  { enabled := true, whitelist := [("200", 2), ("404", -1), ("500", 2)],
    resetIntervalInSecs := 86400 }

/-- A limiter state freshly reset at in-memory time `86400`. -/
def s4State : CodeMgrState :=
  { memLast := 86400, file := some { lastResetTimestamp := 86400, counters := [] } }

/-- The S-4 hit sequence `hit(200); hit(200); hit(404)` within the interval. -/
def s4Hits : List (Int × String) := [(86500, "200"), (86600, "200"), (86700, "404")]

/-- A limiter configuration with a 100-second interval, for the reset
alignment counterexample. -/
def c5Conf : EventCodeConfig :=
  { enabled := true, whitelist := [], resetIntervalInSecs := 100 }

/-- A limiter state whose persisted and in-memory `last_reset_timestamp`
are `0`. -/
def c5State : CodeMgrState :=
  { memLast := 0, file := some { lastResetTimestamp := 0, counters := [] } }

/-- The S-5 resume manifest: a 15 MB file with 6 MB parts, interrupted
after part 2. -/
def resumeManifest : Manifest :=
  { currentPartNumber := 3, totalBytes := 15000000, uploadedBytes := 12000000,
    partSize := 6000000, parts := [1, 2] }

/-- A pending upload-request JSON whose cut window has closed: `flag` is
present and false, `cut = {start: 0, end: 10}`. -/
def pendingErrorJson : ErrorJson :=
  { hasFlag := true, flag := false, hasCut := true, cutStart := 0, cutEnd := 10 }

/-- A concrete machine clock for the closed C3 statements (the extraction
of the S-1 file never reads the clock: every schema it exercises carries a
full date). -/
def c3Now : PyDateTime :=
  { y := 2026, mo := 10, d := 12, h := 0, mi := 0, s := 0, us := 0 }

/-- A collector environment whose limiter reports over-limit for every
code. -/
def c9Env : CollectorEnv :=
  { isOverLimit := fun _ => true, fileIsFile := fun _ => true,
    createdRecordName := "projects/p/records/r", fileSurvives := fun _ => true,
    uploadAllCompleted := true, finishFlagUploaded := true,
    deleteAfterUpload := true, baseDir := "records/key" }

/-- A fresh record cache with an event code and an attached task. -/
def c9Cache : RecordCache :=
  { eventCode := "X", timestamp := 1000, taskName := "tasks/t1",
    files := ["a.log"], fileInfos := [FileInfo.ofFilepath "a.log"] }

/-- A concrete index-write sequence for the C10 witness. -/
def c10Ops : List IndexOp :=
  [.insertTimes "/d/a.log" 10 100 200 false,
   .insertUnsupported "/d/b.log" 7,
   .setProcessed "/d/a.log"]

/-- The entry `c10Ops` leaves at `/d/a.log`. -/
def c10Entry : FileStateEntry :=
  { size := 10, startTime := some 100, endTime := some 200, processed := true }

/-! # Theorems -/

/-! ## Association-list lemmas -/

theorem alookup_aset_self {α : Type} (m : List (String × α)) (k : String) (v : α) :
    alookup (aset m k v) k = some v := by
  induction m with
  | nil => simp [aset, alookup]
  | cons p rest ih =>
    obtain ⟨a, b⟩ := p
    by_cases h : a = k
    · simp [aset, alookup, h]
    · simp [aset, alookup, h, ih]

theorem alookup_aset_other {α : Type} (m : List (String × α)) (k k' : String) (v : α)
    (h : k ≠ k') : alookup (aset m k v) k' = alookup m k' := by
  induction m with
  | nil => simp [aset, alookup, h]
  | cons p rest ih =>
    obtain ⟨a, b⟩ := p
    by_cases ha : a = k
    · subst ha
      simp [aset, alookup, h]
    · simp [aset, alookup, ha, ih]

theorem mem_aset {α : Type} (m : List (String × α)) (k : String) (v : α) :
    ∀ p ∈ aset m k v, p ∈ m ∨ p = (k, v) := by
  induction m with
  | nil => simp [aset]
  | cons q rest ih =>
    obtain ⟨a, b⟩ := q
    intro p hp
    by_cases ha : a = k
    · subst ha
      simp [aset] at hp
      rcases hp with h | h
      · right
        exact h
      · left
        exact List.mem_cons_of_mem _ h
    · simp [aset, ha] at hp
      rcases hp with h | h
      · left
        simp [h]
      · rcases ih p h with h' | h'
        · left
          exact List.mem_cons_of_mem _ h'
        · right
          exact h'

theorem alookup_mem {α : Type} (m : List (String × α)) (k : String) (v : α)
    (h : alookup m k = some v) : (k, v) ∈ m := by
  induction m with
  | nil => simp [alookup] at h
  | cons q rest ih =>
    obtain ⟨a, b⟩ := q
    by_cases ha : a = k
    · subst ha
      simp [alookup] at h
      simp [h]
    · simp [alookup, ha] at h
      simp [ih h]

/-- `FileStateHandler` defines no `update_dirs` method: the attribute
lookup performed by `DefaultMod` at mod.py line 143 fails. -/
theorem fileStateHandler_has_no_update_dirs :
    fileStateHandlerMethodNames.find? (· = "update_dirs") = none := by decide

/-! ## Claim C1 -/

/-- C1: the default mod's sweep is claimed to rewrite every pending
upload-request JSON (flag=false, cut.end ≤ now) with flag=true and the
gathered path lists.  In this code base the sweep instead raises
`AttributeError` at mod.py line 143 — `FileStateHandler` has no
`update_dirs` method — and `DefaultMod.run`'s `except Exception` swallows
it, so the pending JSON stays exactly as it was, `flag` still false. -/
theorem c1_sweep_fails_with_attribute_error :
    findFilesAndUpdateErrorJson pendingErrorJson 20 = .error .attributeError ∧
    sweepHandleErrorJson pendingErrorJson 20 = pendingErrorJson ∧
    (sweepHandleErrorJson pendingErrorJson 20).flag = false := by
  exact ⟨rfl, rfl, rfl⟩

/-! ## Claim C2 -/

/-- C2 counterexample: `RecordCache(event_code="e", timestamp=0,
files=["a","a","b"]).files` is `["a","a","b"]`, not the claimed
`["a","b"]` — `RecordCache.__init__` never deduplicates. -/
theorem c2_files_not_deduplicated :
    (RecordCache.new "e" 0 ["a", "a", "b"]).files ≠ ["a", "b"] ∧
    (RecordCache.new "e" 0 ["a", "a", "b"]).files = ["a", "a", "b"] := by
  exact ⟨by decide, rfl⟩

/-- C2 amended: a `RecordCache` constructed from a `files` list keeps the
list verbatim — duplicates included, in order; `file_infos` gets one entry
per (possibly repeated) path. -/
theorem c2_files_kept_verbatim (eventCode : String) (timestamp : Int)
    (files : List String) :
    (RecordCache.new eventCode timestamp files).files = files ∧
    (RecordCache.new eventCode timestamp files).fileInfos
      = files.map FileInfo.ofFilepath := by
  cases files with
  | nil => exact ⟨rfl, rfl⟩
  | cons f rest => exact ⟨rfl, rfl⟩

/-! ## Claim C3 -/

/-- C3 counterexample: on the S-1 file the extraction does not produce the
claimed `start_time=1705305600` / `end_time=1705305942`; those instants
are 2024-01-15 16:00:00 / 16:05:42 at UTC+08:00, four hours after the
timestamps written in the file. -/
theorem c3_claimed_times_refuted :
    (logUpdatePathState s1FileName s1Content c3Now).startTime ≠ some 1705305600 ∧
    (logUpdatePathState s1FileName s1Content c3Now).endTime ≠ some 1705305942 := by
  exact ⟨by decide, by decide⟩

/-- C3 amended: for the S-1 log file (`svc_20240115_12.log`, first line
`2024-01-15 12:00:00,123 INFO start`, last line
`2024-01-15 12:05:42.000 INFO done`), the log classifier's extraction at
fixed UTC+08:00 yields the index entry `start_time=1705291200`,
`end_time=1705291542` (= 2024-01-15 04:00:00 / 04:05:42 UTC), whatever
the machine clock reads. -/
theorem c3_log_extraction_times (now : PyDateTime) :
    logUpdatePathState s1FileName s1Content now =
      { size := 68, startTime := some 1705291200, endTime := some 1705291542 } := by
  rfl

/-! ## Claim C4 -/

/-- C4: the per-part path is claimed to add each chunk's byte length to
the network-usage upload counter, totalling the file size.  The source
passes the running total `uploaded_bytes` instead (uploader.py line 163):
a fresh 12 MB upload with 6 MB parts feeds the meter 6 MB then 12 MB —
18 MB in total for a 12 MB file. -/
theorem c4_meter_fed_running_total :
    (s3Upload true 12000000 6000000 none).meterAdds = [6000000, 12000000] ∧
    (s3Upload true 12000000 6000000 none).completed = true ∧
    (s3Upload true 12000000 6000000 none).meterAdds.sum = 18000000 ∧
    (18000000 : Nat) ≠ 12000000 := by
  exact ⟨rfl, rfl, rfl, by decide⟩

/-! ## Claim C5 -/

/-- C5 counterexample: with a 100 s interval, in-memory and persisted
`last_reset_timestamp` both `0`, a reset at `now = 250` writes `250` to
the state file — `effectiveLast` of a cold-started manager is then `250`,
which does not differ from the previous value `0` by any whole multiple
of 100. -/
theorem c5_persisted_reset_not_aligned :
    (createOrResetState c5Conf 250 c5State).file
        = some { lastResetTimestamp := 250, counters := [] } ∧
    effectiveLast { memLast := 0, file := (createOrResetState c5Conf 250 c5State).file }
        = 250 ∧
    ¬ ∃ k : Int, (250 : Int)
        = effectiveLast c5State + k * c5Conf.resetIntervalInSecs := by
  refine ⟨by decide, by decide, ?_⟩
  rintro ⟨k, hk⟩
  have h0 : effectiveLast c5State = 0 := by decide
  have h1 : c5Conf.resetIntervalInSecs = 100 := by decide
  rw [h0, h1] at hk
  omega

/-- C5 amended: whenever `_create_or_reset_state` performs a reset, the
in-memory `last_reset_timestamp` advances from its effective previous
value by a whole multiple of `reset_interval_in_secs`; the state file,
however, is written with the raw `now`, which is what a later cold start
reloads. -/
theorem c5_memory_reset_aligned (conf : EventCodeConfig) (now : Int) (s : CodeMgrState)
    (h : now > effectiveLast s + conf.resetIntervalInSecs ∨ s.file = none) :
    (∃ k : Int, (createOrResetState conf now s).memLast
        = effectiveLast s + k * conf.resetIntervalInSecs) ∧
    (createOrResetState conf now s).file
        = some { lastResetTimestamp := now, counters := [] } := by
  have hcond : now > effectiveLast s + conf.resetIntervalInSecs ∨ s.file.isNone := by
    rcases h with h | h
    · exact Or.inl h
    · exact Or.inr (by simp [h])
  simp only [createOrResetState]
  rw [if_pos hcond]
  exact ⟨⟨(now - effectiveLast s).fdiv conf.resetIntervalInSecs, rfl⟩, rfl⟩

/-- C5 witness: the amended theorem applied at the counterexample input. -/
theorem c5_memory_reset_aligned_witness :
    (∃ k : Int, (createOrResetState c5Conf 250 c5State).memLast
        = effectiveLast c5State + k * c5Conf.resetIntervalInSecs) ∧
    (createOrResetState c5Conf 250 c5State).file
        = some { lastResetTimestamp := 250, counters := [] } :=
  c5_memory_reset_aligned c5Conf 250 c5State (Or.inl (by decide))

/-! ## Claim C6 -/

/-- C6: `read_config()` never raises (the embedded `readConfig` is total
over both call oracles): a failing `get_config_version()` returns the
cached value without calling `get_config()`; a version equal to the cached
one returns the cached value without calling `get_config()`; and a failing
`get_config()` after a successful version check still returns the cached
value. -/
theorem c6_read_config_fallback (cached : Option CacheEntry) (v : String)
    (cfgA cfgB : Except Unit ConfigValue) :
    (readConfig true cached (.error ()) cfgA
        = { result := cachedValueOf cached, getConfigCalled := false,
            newCache := cached }) ∧
    (cachedVersionOf cached = v →
      readConfig true cached (.ok v) cfgB
        = { result := cachedValueOf cached, getConfigCalled := false,
            newCache := cached }) ∧
    (readConfig true cached (.ok v) (.error ())).result = cachedValueOf cached := by
  refine ⟨rfl, ?_, ?_⟩
  · intro h
    simp [readConfig, h]
  · by_cases h : cachedVersionOf cached = v <;> simp [readConfig, h]

/-- C6 witness: the fallback theorem applied at a concrete cache entry and
concrete oracle outcomes. -/
theorem c6_read_config_fallback_witness :
    (readConfig true (some { version := "7", value := [("k", "v")] }) (.error ())
        (.error ())
        = { result := cachedValueOf (some { version := "7", value := [("k", "v")] }),
            getConfigCalled := false,
            newCache := some { version := "7", value := [("k", "v")] } }) ∧
    (readConfig true (some { version := "7", value := [("k", "v")] }) (.ok "7")
        (.ok [("x", "y")])
        = { result := cachedValueOf (some { version := "7", value := [("k", "v")] }),
            getConfigCalled := false,
            newCache := some { version := "7", value := [("k", "v")] } }) ∧
    (readConfig true (some { version := "7", value := [("k", "v")] }) (.ok "7")
        (.error ())).result
      = cachedValueOf (some { version := "7", value := [("k", "v")] }) := by
  have h := c6_read_config_fallback (some { version := "7", value := [("k", "v")] })
    "7" (.error ()) (.ok [("x", "y")])
  exact ⟨h.1, h.2.1 rfl, h.2.2⟩

/-! ## Claim C7 -/

/-- Invariant of the part-upload loop: every part it records is numbered
from the starting part upward and read at offset `(PartNumber - 1) *
part_size`. -/
theorem uploadLoop_parts (n ps tp : Nat) :
    ∀ (fuel curr pos : Nat) (m : Manifest) (trace : List (Nat × Nat × Nat))
      (meter : List Nat),
      1 ≤ curr → (pos = (curr - 1) * ps ∨ n ≤ pos) →
      ∀ p ∈ (uploadLoop n ps tp fuel curr pos m trace meter).2.1,
        p ∈ trace.reverse ∨ (curr ≤ p.1 ∧ p.2.1 = (p.1 - 1) * ps) := by
  intro fuel
  induction fuel with
  | zero =>
    intro curr pos m trace meter _ _ p hp
    simp only [uploadLoop] at hp
    exact Or.inl hp
  | succ fuel ih =>
    intro curr pos m trace meter hcurr hpos p hp
    simp only [uploadLoop] at hp
    by_cases hgt : curr > tp
    · rw [if_pos hgt] at hp
      exact Or.inl hp
    · rw [if_neg hgt] at hp
      by_cases hlen : min ps (n - pos) = 0
      · rw [if_pos hlen] at hp
        exact Or.inl hp
      · rw [if_neg hlen] at hp
        have hposn : ¬n ≤ pos := by
          intro hle
          apply hlen
          have : n - pos = 0 := Nat.sub_eq_zero_of_le hle
          simp [this]
        have hpos' : pos = (curr - 1) * ps := by
          rcases hpos with h | h
          · exact h
          · exact absurd h hposn
        have hnext : pos + min ps (n - pos) = (curr + 1 - 1) * ps ∨
            n ≤ pos + min ps (n - pos) := by
          by_cases hfull : min ps (n - pos) = ps
          · left
            rw [hfull, hpos', Nat.succ_sub_one]
            have h1 : curr - 1 + 1 = curr := Nat.succ_pred_eq_of_pos hcurr
            calc (curr - 1) * ps + ps = (curr - 1 + 1) * ps := by ring
              _ = curr * ps := by rw [h1]
          · right
            have hmin : min ps (n - pos) = n - pos := by omega
            rw [hmin]
            omega
        have := ih (curr + 1) (pos + min ps (n - pos))
          { m with currentPartNumber := curr + 1,
                   uploadedBytes := m.uploadedBytes + min ps (n - pos),
                   parts := m.parts ++ [curr] }
          ((curr, pos, min ps (n - pos)) :: trace)
          ((m.uploadedBytes + min ps (n - pos)) :: meter)
          (by omega) hnext p hp
        rcases this with hmem | ⟨hge, hoff⟩
        · rw [List.reverse_cons] at hmem
          rcases List.mem_append.mp hmem with h | h
          · exact Or.inl h
          · simp at h
            subst h
            exact Or.inr ⟨Nat.le_refl curr, hpos'⟩
        · exact Or.inr ⟨by omega, hoff⟩

/-- C7: resuming from an existing manifest uploads only parts numbered
`current_part_number` and above, each read at offset
`(PartNumber - 1) * part_size` (so the file is entered at
`(current_part_number - 1) * part_size`); and in the S-5 scenario — a
15 MB file with 6 MB parts interrupted after part 2 — the restarted upload
finishes with exactly parts `[1, 2, 3]` in ascending order,
`uploaded_bytes = 15_000_000` in the manifest, and the multipart upload
completed. -/
theorem c7_resume_upload :
    (∀ (n ps : Nat) (m : Manifest), 1 ≤ m.currentPartNumber →
      ∀ p ∈ (s3Upload true n ps (some m)).uploadedParts,
        m.currentPartNumber ≤ p.1 ∧ p.2.1 = (p.1 - 1) * ps) ∧
    s3Upload true 15000000 6000000 (some resumeManifest) =
      { manifest := { currentPartNumber := 4, totalBytes := 15000000,
                      uploadedBytes := 15000000, partSize := 6000000,
                      parts := [1, 2, 3] },
        uploadedParts := [(3, 12000000, 3000000)], meterAdds := [15000000],
        completed := true, fileMissing := false } := by
  constructor
  · intro n ps m hm p hp
    have hpos : (if m.currentPartNumber > 1 then (m.currentPartNumber - 1) * ps else 0)
        = (m.currentPartNumber - 1) * ps ∨
        n ≤ (if m.currentPartNumber > 1 then (m.currentPartNumber - 1) * ps else 0) := by
      left
      by_cases h : m.currentPartNumber > 1
      · rw [if_pos h]
      · rw [if_neg h]
        have : m.currentPartNumber = 1 := by omega
        simp [this]
    have := uploadLoop_parts n ps
      (totalPartsOf m.totalBytes ps)
      (totalPartsOf m.totalBytes ps + 1 - m.currentPartNumber + 1)
      m.currentPartNumber
      (if m.currentPartNumber > 1 then (m.currentPartNumber - 1) * ps else 0)
      m [] [] hm hpos p hp
    rcases this with hmem | h
    · simp at hmem
    · exact h
  · rfl

/-- C7 witness: the resume theorem applied to the S-5 manifest and its one
uploaded part. -/
theorem c7_resume_upload_witness :
    resumeManifest.currentPartNumber ≤ 3 ∧
    (12000000 : Nat) = (3 - 1) * 6000000 :=
  c7_resume_upload.1 15000000 6000000 resumeManifest (by decide)
    (3, 12000000, 3000000) (by decide)

/-! ## Claim C8 -/

/-- Within the current reset interval, `_create_or_reset_state` leaves the
limiter state untouched. -/
theorem createOrResetState_noop (conf : EventCodeConfig) (now M L0 : Int)
    (C : List (String × Nat)) (hM : M ≠ 0)
    (hnow : now ≤ M + conf.resetIntervalInSecs) :
    createOrResetState conf now
        { memLast := M, file := some { lastResetTimestamp := L0, counters := C } }
      = { memLast := M, file := some { lastResetTimestamp := L0, counters := C } } := by
  have heff : effectiveLast
      { memLast := M, file := some { lastResetTimestamp := L0, counters := C } } = M := by
    simp [effectiveLast, hM]
  simp only [createOrResetState, heff]
  rw [if_neg]
  simp
  omega

/-- A sequence of in-interval `hit` calls only accumulates counters: the
in-memory anchor, the persisted `last_reset_timestamp` and the whitelist
are untouched. -/
theorem hitMany_counters (conf : EventCodeConfig) (henb : conf.enabled = true)
    (M L0 : Int) (hM : M ≠ 0) :
    ∀ (hits : List (Int × String)) (C : List (String × Nat)),
      (∀ th ∈ hits, th.1 ≤ M + conf.resetIntervalInSecs) →
      hitMany conf hits
          { memLast := M, file := some { lastResetTimestamp := L0, counters := C } }
        = { memLast := M,
            file := some { lastResetTimestamp := L0, counters := countersAfter C hits } } := by
  intro hits
  induction hits with
  | nil =>
    intro C _
    rfl
  | cons th rest ih =>
    intro C hall
    obtain ⟨t, code⟩ := th
    have ht : t ≤ M + conf.resetIntervalInSecs := hall (t, code) (by simp)
    have hrest : ∀ th ∈ rest, th.1 ≤ M + conf.resetIntervalInSecs := by
      intro th' h'
      exact hall th' (by simp [h'])
    by_cases hc : code = ""
    · have hstep : hit conf t code
          { memLast := M, file := some { lastResetTimestamp := L0, counters := C } }
          = { memLast := M, file := some { lastResetTimestamp := L0, counters := C } } := by
        simp [hit, hc]
      simp only [hitMany, List.foldl_cons] at ih ⊢
      rw [hstep]
      have := ih C hrest
      simp only [hitMany] at this
      rw [this]
      simp [countersAfter, hc]
    · have hstep : hit conf t code
          { memLast := M, file := some { lastResetTimestamp := L0, counters := C } }
          = { memLast := M,
              file := some { lastResetTimestamp := L0,
                             counters := aset C code ((alookup C code).getD 0 + 1) } } := by
        rw [hit]
        rw [if_neg (by simp [henb]), if_neg hc]
        rw [createOrResetState_noop conf t M L0 C hM ht]
      simp only [hitMany, List.foldl_cons] at ih ⊢
      rw [hstep]
      have := ih (aset C code ((alookup C code).getD 0 + 1)) hrest
      simp only [hitMany] at this
      rw [this]
      simp [countersAfter, hc]

/-- The counters map after a hit sequence holds, for each non-empty code,
its previous value plus the number of hits of that code. -/
theorem countersAfter_lookup :
    ∀ (hits : List (Int × String)) (C : List (String × Nat)) (c : String),
      (alookup (countersAfter C hits) c).getD 0
        = (alookup C c).getD 0 + (hits.filter (fun p => p.2 = c ∧ p.2 ≠ "")).length := by
  intro hits
  induction hits with
  | nil =>
    intro C c
    simp [countersAfter]
  | cons th rest ih =>
    intro C c
    obtain ⟨t, code⟩ := th
    by_cases hc : code = ""
    · have : countersAfter C ((t, code) :: rest) = countersAfter C rest := by
        simp [countersAfter, hc]
      rw [this, ih]
      simp [hc]
    · have hstep : countersAfter C ((t, code) :: rest)
          = countersAfter (aset C code ((alookup C code).getD 0 + 1)) rest := by
        simp [countersAfter, hc]
      rw [hstep, ih]
      by_cases hcc : code = c
      · subst hcc
        rw [alookup_aset_self]
        simp [hc]
        omega
      · rw [alookup_aset_other C code c _ hcc]
        simp [hcc]

/-- C8: within one reset interval, `is_over_limit(c)` is `false` when the
limiter is disabled; `true` when `c` is empty; `true` when `c` is not
whitelisted; `false` when the whitelist entry is `-1`; and otherwise
`true` exactly when the number of `hit(c)` calls so far has reached the
whitelist limit. -/
theorem c8_is_over_limit_spec (conf : EventCodeConfig) (M L0 : Int) (hM : M ≠ 0)
    (hits : List (Int × String)) (c : String) (now : Int)
    (hhits : ∀ th ∈ hits, th.1 ≤ M + conf.resetIntervalInSecs)
    (hnow : now ≤ M + conf.resetIntervalInSecs) :
    (isOverLimit conf now c
        (hitMany conf hits
          { memLast := M, file := some { lastResetTimestamp := L0, counters := [] } })).1
      = if conf.enabled = false then false
        else if c = "" then true
        else
          match alookup conf.whitelist c with
          | none => true
          | some limit =>
            if limit = -1 then false
            else decide (limit ≤ ((hits.filter (fun p => p.2 = c)).length : Int)) := by
  by_cases henb : conf.enabled
  · rw [hitMany_counters conf henb M L0 hM hits [] hhits]
    rw [isOverLimit]
    rw [if_neg (by simp [henb])]
    rw [createOrResetState_noop conf now M L0 _ hM hnow]
    by_cases hc : c = ""
    · simp [hc, henb]
    · rw [if_neg hc]
      simp only [henb, if_neg (by simp : ¬(true = false)), if_neg hc]
      cases hw : alookup conf.whitelist c with
      | none => simp
      | some limit =>
        by_cases hlim : limit = -1
        · simp [hlim]
        · simp only [hlim, if_neg hlim]
          have hcount := countersAfter_lookup hits [] c
          have hfilter : hits.filter (fun p => p.2 = c ∧ p.2 ≠ "")
              = hits.filter (fun p => p.2 = c) := by
            apply List.filter_congr
            intro p _
            by_cases hpc : p.2 = c
            · simp [hpc, hc]
            · simp [hpc]
          rw [hfilter] at hcount
          simp only [alookup] at hcount
          simp only [hcount]
          simp
  · have henb' : conf.enabled = false := by
      cases h : conf.enabled
      · rfl
      · exact absurd h henb
    simp [isOverLimit, henb']

/-- C8 witness: the S-4 scenario — whitelist `{200:2, 404:-1, 500:2}`,
hits `hit(200); hit(200); hit(404)` — derived by applying the limit
theorem at codes 200, 404, 500 and 999. -/
theorem c8_is_over_limit_spec_witness :
    (isOverLimit s4Conf 86800 "200" (hitMany s4Conf s4Hits s4State)).1 = true ∧
    (isOverLimit s4Conf 86800 "404" (hitMany s4Conf s4Hits s4State)).1 = false ∧
    (isOverLimit s4Conf 86800 "500" (hitMany s4Conf s4Hits s4State)).1 = false ∧
    (isOverLimit s4Conf 86800 "999" (hitMany s4Conf s4Hits s4State)).1 = true := by
  refine ⟨?_, ?_, ?_, ?_⟩
  · exact (c8_is_over_limit_spec s4Conf 86400 86400 (by decide) s4Hits "200" 86800
      (by decide) (by decide)).trans (by decide)
  · exact (c8_is_over_limit_spec s4Conf 86400 86400 (by decide) s4Hits "404" 86800
      (by decide) (by decide)).trans (by decide)
  · exact (c8_is_over_limit_spec s4Conf 86400 86400 (by decide) s4Hits "500" 86800
      (by decide) (by decide)).trans (by decide)
  · exact (c8_is_over_limit_spec s4Conf 86400 86400 (by decide) s4Hits "999" 86800
      (by decide) (by decide)).trans (by decide)

/-! ## Claim C9 -/

/-- C9: on a fresh record cache (no record name, not skipped) whose event
code is present and over limit, `handle_record` marks the attached task
(if any) `SUCCEEDED`, sets `skipped`, persists the state, and never calls
`create_or_get_record`. -/
theorem c9_over_limit_skips (env : CollectorEnv) (rc : RecordCache)
    (hname : rc.recordName = "") (hskip : rc.skipped = false)
    (hcode : rc.eventCode ≠ "") (hover : env.isOverLimit rc.eventCode = true) :
    (handleRecord env rc).1.skipped = true ∧
    (handleRecord env rc).2
      = [CollectorCall.setProjectName rc.projectName] ++
        (if rc.taskName ≠ "" then
          [CollectorCall.updateTaskState rc.taskName "SUCCEEDED"] else []) ++
        [CollectorCall.saveState, CollectorCall.deleteCacheDir] ∧
    CollectorCall.createOrGetRecord ∉ (handleRecord env rc).2 := by
  have hbranch : handleRecord env rc
      = ({ rc with skipped := true },
        [CollectorCall.setProjectName rc.projectName] ++
          (if rc.taskName ≠ "" then
            [CollectorCall.updateTaskState rc.taskName "SUCCEEDED"] else []) ++
          [CollectorCall.saveState, CollectorCall.deleteCacheDir]) := by
    rw [handleRecord]
    rw [if_neg (by simp [hskip])]
    rw [if_pos ⟨hname, hcode, hover⟩]
  refine ⟨by rw [hbranch], by rw [hbranch], ?_⟩
  rw [hbranch]
  by_cases ht : rc.taskName = "" <;> simp [ht]

/-- C9 witness: the skip theorem applied to a concrete fresh cache with an
attached task under an always-over-limit environment. -/
theorem c9_over_limit_skips_witness :
    (handleRecord c9Env c9Cache).1.skipped = true ∧
    CollectorCall.createOrGetRecord ∉ (handleRecord c9Env c9Cache).2 :=
  ⟨(c9_over_limit_skips c9Env c9Cache rfl rfl (by decide) rfl).1,
   (c9_over_limit_skips c9Env c9Cache rfl rfl (by decide) rfl).2.2⟩

/-! ## Claim C10 -/

/-- Each single index write preserves well-formedness of every entry. -/
theorem wellFormed_applyIndexOp (m : FileStateMap) (op : IndexOp)
    (h : ∀ p ∈ m, entryWellFormed p.2) :
    ∀ p ∈ applyIndexOp m op, entryWellFormed p.2 := by
  cases op with
  | insertTimes path size s e isDir =>
    intro p hp
    rcases mem_aset m path _ p hp with h' | h'
    · exact h p h'
    · rw [h']
      exact Or.inr ⟨rfl, rfl⟩
  | insertUnsupported path size =>
    intro p hp
    rcases mem_aset m path _ p hp with h' | h'
    · exact h p h'
    · rw [h']
      exact Or.inl rfl
  | setProcessed path =>
    intro p hp
    cases hl : alookup m path with
    | none =>
      simp only [applyIndexOp, hl] at hp
      exact h p hp
    | some entry =>
      simp only [applyIndexOp, hl] at hp
      rcases mem_aset m path _ p hp with h' | h'
      · exact h p h'
      · have hw := h (path, entry) (alookup_mem m path entry hl)
        rw [h']
        rcases hw with hu | hse
        · exact Or.inl hu
        · exact Or.inr hse
  | remove path =>
    intro p hp
    exact h p (List.mem_of_mem_filter hp)

/-- C10: every entry of the file-state index built by any sequence of the
index's write operations is either marked `unsupported` or carries both a
`start_time` and an `end_time`, so the range comparisons in `get_files`
are defined on every entry that passes its `unsupported` test. -/
theorem c10_index_entries_wellFormed (ops : List IndexOp) :
    ∀ p ∈ applyIndexOps ops, entryWellFormed p.2 := by
  suffices h : ∀ (ops' : List IndexOp) (m : FileStateMap),
      (∀ p ∈ m, entryWellFormed p.2) →
      ∀ p ∈ ops'.foldl applyIndexOp m, entryWellFormed p.2 by
    exact h ops [] (by simp)
  intro ops'
  induction ops' with
  | nil =>
    intro m hm
    simpa using hm
  | cons op rest ih =>
    intro m hm
    simp only [List.foldl_cons]
    exact ih (applyIndexOp m op) (wellFormed_applyIndexOp m op hm)

/-- C10 witness: the invariant evaluated on a concrete operation sequence
— an entry written with times, marked processed, next to an unsupported
sibling. -/
theorem c10_index_entries_wellFormed_witness :
    ("/d/a.log", c10Entry) ∈ applyIndexOps c10Ops ∧ entryWellFormed c10Entry :=
  ⟨by decide, c10_index_entries_wellFormed c10Ops ("/d/a.log", c10Entry) (by decide)⟩

end Coscout
